import Mathlib

/-!
Verification development for the PypeIt frame-combination engine
(`pypit/arcomb.py`, function `comb_frames`).

A frame stack (width, height, num_frames) is modelled pixel-wise: the two
spatial axes are flattened into one list of pixels, each pixel holding the
list of its per-frame values (every operation of the source acts pixel-wise
along the frame axis, so the flattening loses nothing).  Pixel values are
rationals.  The Cython module `arcycomb` (masked-statistics primitives) is
not part of the sources at hand; its operations are modelled from the
specification, as marked on each definition.
-/

namespace Arcomb

/-- A pixel stack: one entry per pixel, each entry the list of values of that
pixel across the frames (the frame axis of the 3D array). -/
abbrev Stack := List (List ℚ)

/-- Errors observable from `comb_frames`: `msgsError` models a fatal
`msgs.error` call (tagged with an abbreviation of its message), `typeError`
and `indexError` model the corresponding Python exceptions raised by numpy
or list indexing. -/
inductive PyErr where
  | msgsError (msg : String)
  | typeError
  | indexError
deriving DecidableEq

instance {ε α : Type} [DecidableEq ε] [DecidableEq α] :
    DecidableEq (Except ε α) := fun x y =>
  match x, y with
  | .ok a, .ok b =>
      if h : a = b then .isTrue (by rw [h])
      else .isFalse (by intro hh; cases hh; exact h rfl)
  | .ok _, .error _ => .isFalse (by intro hh; cases hh)
  | .error _, .ok _ => .isFalse (by intro hh; cases hh)
  | .error e, .error f =>
      if h : e = f then .isTrue (by rw [h])
      else .isFalse (by intro hh; cases hh; exact h rfl)

/-- Per-detector parameters from the spectrograph settings record
(`spect` entries): saturation count and nonlinearity fraction. -/
structure Det where
  saturation : ℚ
  nonlinear : ℚ
deriving DecidableEq

/-- The `reject` dictionary of `comb_frames`: cosmic-ray sigma threshold,
replacement rule name, deviant-level sigma thresholds, low/high
order-statistic rejection counts. -/
structure RejectDict where
  cosmics : ℚ
  replace : String
  level : ℚ × ℚ
  lowhigh : ℕ × ℕ
deriving DecidableEq

/-- Default `reject` dictionary built at line 32 of the source when the
caller passes `reject=None`. -/
def defaultReject : RejectDict :=
  { cosmics := -1, replace := "median", level := (0, 0), lowhigh := (0, 0) }

/-- Python list indexing with negative-index wrap-around; out of range
raises `IndexError`. -/
def pyGet (l : List Det) (i : ℤ) : Except PyErr Det :=
  let j : ℤ := if i < 0 then (l.length : ℤ) + i else i
  if h : 0 ≤ j ∧ j.toNat < l.length then .ok (l.get ⟨j.toNat, h.2⟩)
  else .error .indexError

/-- Effective saturation ceiling of the selected detector:
`spect[det-1].saturation * spect[det-1].nonlinear` (the source indexes
`spect['det'][det-1]` at lines 68, 79 and 83). -/
def satCeiling (spect : List Det) (det : ℤ) : Except PyErr ℚ := do
  let d ← pyGet spect (det - 1)
  return d.saturation * d.nonlinear

/-! ## Sorting and median primitives -/

/-- Median of a list of rationals: sort ascending; middle element for odd
length, average of the two middle elements for even length (numpy
`np.median` semantics). -/
def medianQ (l : List ℚ) : ℚ :=
  let s := l.insertionSort (fun a b => a ≤ b)
  let n := s.length
  if n % 2 = 1 then s.getD (n / 2) 0
  else (s.getD (n / 2 - 1) 0 + s.getD (n / 2) 0) / 2

/-! ## Masked statistics primitives (the `arcycomb` module)

The Cython sources of `arcycomb` are not available; each primitive below is
modelled from the specification (§4.1 of the spec). -/

/-- Modelled from the spec: `masked_median` on one pixel — median of the
non-sentinel values; when every value equals the sentinel the pixel is
fully rejected and the result carries the sentinel, to be resolved later by
`masked_replace`. -/
def maskedMedianPx (p : List ℚ) (mv : ℚ) : ℚ :=
  let good := p.filter (fun x => x ≠ mv)
  if good.isEmpty then mv else medianQ good

/-- Modelled from the spec: `masked_median` over the stack, pixel-wise. -/
def maskedMedianArr (s : Stack) (mv : ℚ) : List ℚ :=
  s.map (fun p => maskedMedianPx p mv)

/-- Modelled from the spec: `masked_mean` on one pixel — mean of the
non-sentinel values, sentinel when fully rejected. -/
def maskedMeanPx (p : List ℚ) (mv : ℚ) : ℚ :=
  let good := p.filter (fun x => x ≠ mv)
  if good.isEmpty then mv else good.sum / good.length

/-- Modelled from the spec: `masked_mean` over the stack, pixel-wise. -/
def maskedMeanArr (s : Stack) (mv : ℚ) : List ℚ :=
  s.map (fun p => maskedMeanPx p mv)

/-- Modelled from the spec: `masked_weightmean` — with no external weights
supplied (as in every call of `comb_frames`) it is the unweighted masked
mean. -/
def maskedWeightmeanArr (s : Stack) (mv : ℚ) : List ℚ :=
  maskedMeanArr s mv

/-- Modelled from the spec: unmasked per-pixel `mean`. -/
def meanArr (s : Stack) : List ℚ :=
  s.map (fun p => p.sum / p.length)

/-- Modelled from the spec: unmasked per-pixel `median`. -/
def medianArr (s : Stack) : List ℚ :=
  s.map (fun p => medianQ p)

/-- Modelled from the spec: `minmax` — per-pixel minimum (`which = 0`) or
maximum (otherwise).  The call sites pass no sentinel, so no masking is
possible; an empty pixel yields 0. -/
def minmaxArr (s : Stack) (which : ℕ) : List ℚ :=
  s.map (fun p =>
    if which = 0 then p.foldr min (p.headI) else p.foldr max (p.headI))

/-- Modelled from the spec: `maxnonsat` — per-pixel maximum of the values
strictly below the ceiling; the spec leaves the all-saturated pixel
unspecified, here it falls back to the per-pixel minimum. -/
def maxnonsatArr (s : Stack) (ceiling : ℚ) : List ℚ :=
  s.map (fun p =>
    let good := p.filter (fun x => x < ceiling)
    if good.isEmpty then p.foldr min (p.headI) else good.foldr max (good.headI))

/-- Modelled from the spec: `masked_limitget` — records, per pixel, whether
any frame exceeds the threshold (the forced-saturation positions of §4.2
step 3). -/
def maskedLimitget (s : Stack) (threshold : ℚ) : List Bool :=
  s.map (fun p => p.any (fun x => threshold < x))

/-- Modelled from the spec: `masked_limitset` — a new stack in which every
value exceeding the threshold is replaced by the sentinel. -/
def maskedLimitset (s : Stack) (threshold : ℚ) (mv : ℚ) : Stack :=
  s.map (fun p => p.map (fun x => if threshold < x then mv else x))

/-- Modelled from the spec: `masked_limitsetarr` — like `masked_limitset`
with a per-pixel threshold; `sign` positive rejects values above the
threshold, negative rejects values below. -/
def maskedLimitsetarr (s : Stack) (thr : List ℚ) (sign : ℤ) (mv : ℚ) : Stack :=
  List.zipWith
    (fun p t => p.map (fun x =>
      if 0 ≤ sign then (if t < x then mv else x) else (if x < t then mv else x)))
    s thr

/-- Modelled from the spec: `masked_replace` — wherever the combined result
carries the sentinel (every frame rejected at that pixel), substitute the
precomputed fallback value. -/
def maskedReplace (combined fallback : List ℚ) (mv : ℚ) : List ℚ :=
  List.zipWith (fun c f => if c = mv then f else c) combined fallback

/-! ## Stages of `comb_frames` (translated from `pypit/arcomb.py`) -/

/-- Lines 56-70: precompute the per-pixel fallback used where all frames are
rejected, dispatching on `reject['replace']`; an unknown rule is a fatal
`msgs.error`. -/
def fallbackArr (s : Stack) (reject : RejectDict) (spect : List Det) (det : ℤ)
    (mv : ℚ) : Except PyErr (List ℚ) :=
  if reject.replace = "min" then .ok (minmaxArr s 0)
  else if reject.replace = "max" then .ok (minmaxArr s 1)
  else if reject.replace = "mean" then .ok (meanArr s)
  else if reject.replace = "median" then .ok (medianArr s)
  else if reject.replace = "weightmean" then .ok (maskedWeightmeanArr s mv)
  else if reject.replace = "maxnonsat" then do
    let c ← satCeiling spect det
    return maxnonsatArr s c
  else .error (.msgsError "replace")

/-- Lines 74-88: saturated-pixel handling.  `force` records the positions
where any frame exceeds the ceiling without touching the stack; `reject`
masks values above the ceiling with the sentinel; `nothing` is a no-op; any
other mode is a fatal `msgs.error`. -/
def satStage (s : Stack) (satpix : String) (spect : List Det) (det : ℤ)
    (mv : ℚ) : Except PyErr (List Bool × Stack) :=
  if satpix = "force" then do
    let c ← satCeiling spect det
    return (maskedLimitget s c, s)
  else if satpix = "reject" then do
    let c ← satCeiling spect det
    return ([], maskedLimitset s c mv)
  else if satpix = "nothing" then .ok ([], s)
  else .error (.msgsError "satpix")

/-- Lines 95-96 (and identically 135-136): per-pixel robust sigma,
1.4826 times the masked median of the absolute deviations of the stack from
the given per-pixel centre (the masking tests the deviation itself against
the sentinel, since the source takes `masked_median` of
`abs(frames_arr - medarr)`). -/
def robustStdArr (s : Stack) (med : List ℚ) (mv : ℚ) : List ℚ :=
  List.zipWith
    (fun p m => (1.4826 : ℚ) * maskedMedianPx (p.map (fun x => |x - m|)) mv)
    s med

/-- Lines 93-99: cosmic-ray rejection.  Active only for a positive sigma
threshold; computes the masked median and robust sigma of the working stack
and masks every value above `median + threshold * sigma`. -/
def cosmicStage (s : Stack) (t : ℚ) (mv : ℚ) : Stack :=
  if 0 < t then
    let med := maskedMedianArr s mv
    let std := robustStdArr s med mv
    maskedLimitsetarr s (List.zipWith (fun m sd => m + t * sd) med std) 2 mv
  else s

/-- Lines 110-114: the low-rejection loop.  Every iteration begins with
`np.indices(sz_x, sz_y)`; `np.indices` expects a single dimensions sequence,
so passing two integers raises `TypeError` before any assignment runs. -/
def lowRejectLoop (s : Stack) (rejlo : ℕ) : Except PyErr Stack :=
  match rejlo with
  | 0 => .ok s
  | _ + 1 => .error .typeError

/-- Lines 119-123: the high-rejection loop, same `np.indices(sz_x, sz_y)`
misuse, hence `TypeError` on the first iteration. -/
def highRejectLoop (s : Stack) (rejhi : ℕ) : Except PyErr Stack :=
  match rejhi with
  | 0 => .ok s
  | _ + 1 => .error .typeError

/-- Lines 104-124: low/high order-statistic rejection.  When either count is
positive the stack is first sorted along the frame axis; the low loop then
runs (raising `TypeError`, see `lowRejectLoop`); the high branch first flips
sentinel values to their negative and its loop raises likewise.  Line 124
(`frames_arr[np.where(frames_arr) == -maskvalue] *= -1`) compares a tuple
with a scalar, selecting an empty view, so it would restore nothing. -/
def lowhighStage (s : Stack) (lo hi : ℕ) (mv : ℚ) : Except PyErr Stack :=
  if 0 < lo ∨ 0 < hi then do
    let sorted := s.map (fun p => p.insertionSort (fun a b => a ≤ b))
    let s1 ← if 0 < lo then lowRejectLoop sorted lo else .ok sorted
    if 0 < hi then
      let flipped := s1.map (fun p => p.map (fun x => if x = mv then -mv else x))
      let s2 ← highRejectLoop flipped hi
      return s2
    else return s1
  else .ok s

/-- Lines 133-142: deviant-pixel rejection.  Active when either level is
positive; masks values below `median - level_low * sigma`, then values above
`median + level_high * sigma`, with the median and sigma computed once on
the stage input. -/
def deviantStage (s : Stack) (l0 l1 : ℚ) (mv : ℚ) : Stack :=
  if 0 < l0 ∨ 0 < l1 then
    let med := maskedMedianArr s mv
    let std := robustStdArr s med mv
    let s1 := maskedLimitsetarr s
      (List.zipWith (fun m sd => m - l0 * sd) med std) (-2) mv
    maskedLimitsetarr s1
      (List.zipWith (fun m sd => m + l1 * sd) med std) 2 mv
  else s

/-- Lines 146-153: final combination, dispatching on the method name; an
unknown method is a fatal `msgs.error`. -/
def combineStage (s : Stack) (method : String) (mv : ℚ) :
    Except PyErr (List ℚ) :=
  if method = "mean" then .ok (maskedMeanArr s mv)
  else if method = "median" then .ok (maskedMedianArr s mv)
  else if method = "weightmean" then .ok (maskedWeightmeanArr s mv)
  else .error (.msgsError "method")

/-- Lines 162-164: in `force` mode overwrite the recorded positions with
`spect['det'][det]['saturation']` — note the index is `det`, not the
`det - 1` used everywhere else; the lookup happens before the (possibly
empty) assignment, Python evaluating the right-hand side first. -/
def satApply (combined : List ℚ) (satpix : String) (setsat : List Bool)
    (spect : List Det) (det : ℤ) : Except PyErr (List ℚ) :=
  if satpix = "force" then do
    let d ← pyGet spect det
    return List.zipWith (fun b c => if b then d.saturation else c) setsat combined
  else .ok combined

/-- Names of the numeric stages actually executed before returning or
failing: the first component of `combFrames` lists them in order. -/
def satTraceOf (satpix : String) : List String :=
  if satpix = "force" ∨ satpix = "reject" then ["satmask"] else []

/-- The frame-combination engine `comb_frames` (lines 12-170 of
`pypit/arcomb.py`), returning the ordered list of numeric stages performed
together with the result or the error that aborted the call.  `frames` is
`none` for a `None` stack; `num_frames` is the third component of
`np.shape`, here the frame-axis length of the stack. -/
def combFrames (frames : Option Stack) (det : ℤ) (method : String)
    (rejectOpt : Option RejectDict) (satpix : String) (spect : List Det)
    (mv : ℚ) : List String × Except PyErr (List ℚ) :=
  match frames with
  | none => ([], .error (.msgsError "no frames"))
  | some stack =>
    let reject := rejectOpt.getD defaultReject
    let num_frames := stack.headI.length
    if num_frames = 1 then
      ([], .ok (stack.map List.headI))
    else
      -- lines 48-51: the guard fires only when BOTH counts are positive
      if 0 < reject.lowhigh.1 ∧ 0 < reject.lowhigh.2 ∧
          num_frames ≤ reject.lowhigh.1 + reject.lowhigh.2 then
        ([], .error (.msgsError "reject lowhigh"))
      else
        match fallbackArr stack reject spect det mv with
        | .error e => ([], .error e)
        | .ok allrej =>
          match satStage stack satpix spect det mv with
          | .error e => (["fallback"], .error e)
          | .ok (setsat, s1) =>
            let t1 := "fallback" :: satTraceOf satpix
            let s2 := cosmicStage s1 reject.cosmics mv
            let t2 := t1 ++ (if 0 < reject.cosmics then ["cosmics"] else [])
            match lowhighStage s2 reject.lowhigh.1 reject.lowhigh.2 mv with
            | .error e =>
                (t2 ++ (if 0 < reject.lowhigh.1 ∨ 0 < reject.lowhigh.2 then
                  ["lowhigh_sort"] else []), .error e)
            | .ok s3 =>
              let t3 := t2 ++ (if 0 < reject.lowhigh.1 ∨ 0 < reject.lowhigh.2
                then ["lowhigh_sort"] else [])
              let s4 := deviantStage s3 reject.level.1 reject.level.2 mv
              let t4 := t3 ++ (if 0 < reject.level.1 ∨ 0 < reject.level.2
                then ["deviant"] else [])
              match combineStage s4 method mv with
              | .error e => (t4, .error e)
              | .ok comb =>
                let t5 := t4 ++ ["combine"]
                let replaced := maskedReplace comb allrej mv
                let t6 := t5 ++ ["replace"]
                match satApply replaced satpix setsat spect det with
                | .error e => (t6, .error e)
                | .ok final =>
                  (t6 ++ (if satpix = "force" then ["satapply"] else []),
                    .ok final)

/-! ## Claim-side definitions -/

/-- The cosmic-ray stage as the specification sentence words it: robust
sigma is 1.4826 times the median of the absolute deviations of the
NON-SENTINEL entries from the masked median (sentinel entries excluded from
the deviation median by looking at the original entry, not at its
deviation); values above `median + t * sigma` are marked. -/
def cosmicStageClaim (s : Stack) (t : ℚ) (mv : ℚ) : Stack :=
  if 0 < t then
    s.map (fun p =>
      let m := maskedMedianPx p mv
      let devs := (p.filter (fun x => x ≠ mv)).map (fun x => |x - m|)
      let sd := (1.4826 : ℚ) * (if devs.isEmpty then mv else medianQ devs)
      p.map (fun x => if m + t * sd < x then mv else x))
  else s

/-! ## Aliasing model

The concurrency/frame-effect claim is about which buffer the in-place
mutations of the source touch.  `Mem` tracks the buffer of the original
`frames_arr` argument and the array the local name `frames_arr` is bound
to, which either aliases the original buffer or is a fresh array.  Python
name rebinding (`frames_arr = ...` with a newly returned array — every
`arcycomb` primitive returns a new stack per the spec, and `np.sort` with
an axis argument returns a sorted copy) switches to a fresh buffer;
subscript assignment (`frames_arr[...] = ...`, `*=`) writes through the
binding into whichever buffer it aliases. -/

/-- The array the local name is bound to: the original buffer or a fresh
one with the given contents. -/
inductive WorkRef where
  | toOrig
  | toFresh (s : Stack)

/-- Memory: contents of the original (callers) buffer, plus the current
binding of the local name. -/
structure Mem where
  orig : Stack
  work : WorkRef

/-- Read the stack the local name currently denotes. -/
def Mem.read (m : Mem) : Stack :=
  match m.work with
  | .toOrig => m.orig
  | .toFresh s => s

/-- Rebind the local name to a freshly allocated array. -/
def Mem.rebind (m : Mem) (s : Stack) : Mem :=
  { m with work := .toFresh s }

/-- Subscript-assign through the local name: mutates the aliased buffer. -/
def Mem.writeInPlace (m : Mem) (f : Stack → Stack) : Mem :=
  match m.work with
  | .toOrig => { orig := f m.orig, work := .toOrig }
  | .toFresh s => { m with work := .toFresh (f s) }

/-- Lines 104-124 in the aliasing model: the sort rebinds to a fresh copy;
the sign flip of line 118 is the only subscript assignment reached (the
rejection loops raise on entry); it writes through the binding. -/
def lowhighStageMem (m : Mem) (lo hi : ℕ) (mv : ℚ) : Mem × Except PyErr Unit :=
  if 0 < lo ∨ 0 < hi then
    let m1 := m.rebind (m.read.map (fun p => p.insertionSort (fun a b => a ≤ b)))
    if 0 < lo then
      -- first iteration of the low loop raises TypeError at np.indices
      (m1, .error .typeError)
    else
      let m2 := m1.writeInPlace
        (fun s => s.map (fun p => p.map (fun x => if x = mv then -mv else x)))
      -- first iteration of the high loop raises TypeError at np.indices
      (m2, .error .typeError)
  else (m, .ok ())

/-- Line 83 in the aliasing model: satpix == reject rebinds `frames_arr` to
the newly returned masked stack; force and nothing leave the binding
untouched. -/
def memAfterSat (m : Mem) (satpix : String) (s1 : Stack) : Mem :=
  if satpix = "reject" then m.rebind s1 else m

/-- Line 97 in the aliasing model: an active cosmic-ray stage rebinds
`frames_arr` to the newly returned stack. -/
def memAfterCR (m : Mem) (c mv : ℚ) : Mem :=
  if 0 < c then m.rebind (cosmicStage m.read c mv) else m

/-- Lines 137-138 in the aliasing model: an active deviant stage rebinds
`frames_arr` to the newly returned stack. -/
def memAfterDev (m : Mem) (l0 l1 mv : ℚ) : Mem :=
  if 0 < l0 ∨ 0 < l1 then m.rebind (deviantStage m.read l0 l1 mv) else m

/-- `comb_frames` in the aliasing model: the same control flow as
`combFrames`, with every rebinding and subscript assignment of the local
name `frames_arr` routed through `Mem` — the binding starts out aliasing
the caller buffer, and reads before the first rebinding see the caller
contents.  After the combination step the local name is rebound to freshly
produced 2D arrays, so the final subscript assignment of line 164 also
goes to a fresh buffer; the returned `Mem` exposes the state of the
original buffer when the call returns or raises. -/
def combFramesMem (stack : Stack) (det : ℤ) (method : String)
    (rejectOpt : Option RejectDict) (satpix : String) (spect : List Det)
    (mv : ℚ) : Mem × Except PyErr (List ℚ) :=
  let reject := rejectOpt.getD defaultReject
  if stack.headI.length = 1 then
    (⟨stack, .toOrig⟩, .ok (stack.map List.headI))
  else
    if 0 < reject.lowhigh.1 ∧ 0 < reject.lowhigh.2 ∧
        stack.headI.length ≤ reject.lowhigh.1 + reject.lowhigh.2 then
      (⟨stack, .toOrig⟩, .error (.msgsError "reject lowhigh"))
    else
      match fallbackArr stack reject spect det mv with
      | .error e => (⟨stack, .toOrig⟩, .error e)
      | .ok allrej =>
        match satStage stack satpix spect det mv with
        | .error e => (⟨stack, .toOrig⟩, .error e)
        | .ok (setsat, s1) =>
          let m2 := memAfterCR (memAfterSat ⟨stack, .toOrig⟩ satpix s1)
            reject.cosmics mv
          match lowhighStageMem m2 reject.lowhigh.1 reject.lowhigh.2 mv with
          | (m3, .error e) => (m3, .error e)
          | (m3, .ok ()) =>
            let m4 := memAfterDev m3 reject.level.1 reject.level.2 mv
            match combineStage m4.read method mv with
            | .error e => (m4, .error e)
            | .ok comb =>
              -- from here on the local name is bound to fresh 2D arrays
              let replaced := maskedReplace comb allrej mv
              match satApply replaced satpix setsat spect det with
              | .error e => (m4, .error e)
              | .ok final => (m4, .ok final)

/-! ## Helper lemmas -/

theorem map_id_of {α : Type} (l : List α) (f : α → α) (h : ∀ x ∈ l, f x = x) :
    l.map f = l := by
  induction l with
  | nil => rfl
  | cons a t ih =>
      simp only [List.map_cons, h a (by simp), ih (fun x hx => h x (by simp [hx]))]

theorem medianQ_const (l : List ℚ) (v : ℚ) (h0 : l ≠ [])
    (h : ∀ x ∈ l, x = v) : medianQ l = v := by
  unfold medianQ
  have hperm := List.perm_insertionSort (fun a b : ℚ => a ≤ b) l
  have hmem : ∀ x ∈ l.insertionSort (fun a b : ℚ => a ≤ b), x = v :=
    fun x hx => h x (hperm.mem_iff.1 hx)
  have hlen : (l.insertionSort (fun a b : ℚ => a ≤ b)).length = l.length :=
    hperm.length_eq
  have hpos : 0 < l.length := List.length_pos.2 h0
  set s := l.insertionSort (fun a b : ℚ => a ≤ b) with hs
  have hslen : 0 < s.length := by rw [hlen]; exact hpos
  have hget : ∀ i (hi : i < s.length), s.getD i 0 = v := by
    intro i hi
    rw [List.getD_eq_getElem s 0 hi]
    exact hmem _ (List.getElem_mem hi)
  by_cases hp : s.length % 2 = 1
  · simp only [hp, if_pos]
    exact hget _ (Nat.div_lt_self hslen (by norm_num))
  · simp only [hp, if_neg, ite_false]
    have h2 : s.length / 2 < s.length := Nat.div_lt_self hslen (by norm_num)
    rw [hget _ h2, hget _ (lt_of_le_of_lt (Nat.sub_le _ _) h2)]
    ring

theorem maskedMeanPx_const (l : List ℚ) (v mv : ℚ) (h0 : l ≠ [])
    (hv : v ≠ mv) (h : ∀ x ∈ l, x = v) : maskedMeanPx l mv = v := by
  unfold maskedMeanPx
  have hf : l.filter (fun x => x ≠ mv) = l := by
    apply List.filter_eq_self.2
    intro x hx
    simp [h x hx, hv]
  rw [hf]
  simp only [List.isEmpty_iff, h0, if_neg, ite_false]
  rw [List.sum_eq_card_nsmul l v h, nsmul_eq_mul]
  have hlq : (l.length : ℚ) ≠ 0 :=
    Nat.cast_ne_zero.2 (List.length_pos.2 h0).ne'
  field_simp

theorem maskedMedianPx_const (l : List ℚ) (v mv : ℚ) (h0 : l ≠ [])
    (hv : v ≠ mv) (h : ∀ x ∈ l, x = v) : maskedMedianPx l mv = v := by
  unfold maskedMedianPx
  have hf : l.filter (fun x => x ≠ mv) = l := by
    apply List.filter_eq_self.2
    intro x hx
    simp [h x hx, hv]
  rw [hf]
  simp only [List.isEmpty_iff, h0, if_neg, ite_false]
  exact medianQ_const l v h0 h

theorem maskedMeanPx_allmv (l : List ℚ) (mv : ℚ) (h : ∀ x ∈ l, x = mv) :
    maskedMeanPx l mv = mv := by
  unfold maskedMeanPx
  have hf : l.filter (fun x => x ≠ mv) = [] := by
    apply List.filter_eq_nil_iff.2
    intro x hx
    simp [h x hx]
  rw [hf]
  simp

theorem maskedMedianPx_allmv (l : List ℚ) (mv : ℚ) (h : ∀ x ∈ l, x = mv) :
    maskedMedianPx l mv = mv := by
  unfold maskedMedianPx
  have hf : l.filter (fun x => x ≠ mv) = [] := by
    apply List.filter_eq_nil_iff.2
    intro x hx
    simp [h x hx]
  rw [hf]
  simp

theorem maskedMedianArr_length (s : Stack) (mv : ℚ) :
    (maskedMedianArr s mv).length = s.length := by
  simp [maskedMedianArr]

theorem cosmicStage_length (s : Stack) (t mv : ℚ) :
    (cosmicStage s t mv).length = s.length := by
  unfold cosmicStage
  split
  · simp [maskedLimitsetarr, robustStdArr, maskedMedianArr]
  · rfl

theorem deviantStage_length (s : Stack) (l0 l1 mv : ℚ) :
    (deviantStage s l0 l1 mv).length = s.length := by
  unfold deviantStage
  split
  · simp [maskedLimitsetarr, robustStdArr, maskedMedianArr]
  · rfl

theorem satStage_ok_length (s : Stack) (satpix : String) (spect : List Det)
    (det : ℤ) (mv : ℚ) (setsat : List Bool) (s1 : Stack)
    (h : satStage s satpix spect det mv = .ok (setsat, s1)) :
    s1.length = s.length ∧ (satpix = "force" → setsat.length = s.length) := by
  unfold satStage at h
  split_ifs at h with h1 h2 h3
  · cases hc : satCeiling spect det with
    | error e =>
        rw [hc] at h
        cases show (Except.error e : Except PyErr (List Bool × Stack))
          = .ok (setsat, s1) from h
    | ok c =>
        rw [hc] at h
        have h4 : (Except.ok (maskedLimitget s c, s) :
            Except PyErr (List Bool × Stack)) = .ok (setsat, s1) := h
        injection h4 with h5
        cases h5
        simp [maskedLimitget]
  · cases hc : satCeiling spect det with
    | error e =>
        rw [hc] at h
        cases show (Except.error e : Except PyErr (List Bool × Stack))
          = .ok (setsat, s1) from h
    | ok c =>
        rw [hc] at h
        have h4 : (Except.ok (([] : List Bool), maskedLimitset s c mv) :
            Except PyErr (List Bool × Stack)) = .ok (setsat, s1) := h
        injection h4 with h5
        cases h5
        exact ⟨by simp [maskedLimitset], fun hf => absurd hf h1⟩
  · have h4 : (Except.ok (([] : List Bool), s) :
        Except PyErr (List Bool × Stack)) = .ok (setsat, s1) := h
    injection h4 with h5
    cases h5
    exact ⟨rfl, fun hf => absurd hf h1⟩

theorem fallbackArr_ok_length (s : Stack) (r : RejectDict) (spect : List Det)
    (det : ℤ) (mv : ℚ) (a : List ℚ)
    (h : fallbackArr s r spect det mv = .ok a) : a.length = s.length := by
  unfold fallbackArr at h
  split_ifs at h with h1 h2 h3 h4 h5 h6
  · injection h with h0
    subst h0
    simp [minmaxArr]
  · injection h with h0
    subst h0
    simp [minmaxArr]
  · injection h with h0
    subst h0
    simp [meanArr]
  · injection h with h0
    subst h0
    simp [medianArr]
  · injection h with h0
    subst h0
    simp [maskedWeightmeanArr, maskedMeanArr]
  · cases hc : satCeiling spect det with
    | error e =>
        rw [hc] at h
        cases show (Except.error e : Except PyErr (List ℚ)) = .ok a from h
    | ok c =>
        rw [hc] at h
        have h7 : (Except.ok (maxnonsatArr s c) : Except PyErr (List ℚ))
          = .ok a := h
        injection h7 with h0
        subst h0
        simp [maxnonsatArr]

/-! ## Claim C1 -/

/-- C1: the low/high order-statistic rejection stage never marks anything:
as soon as either count is positive, the first loop iteration calls
`np.indices(sz_x, sz_y)` with two integer arguments and raises `TypeError`
(after the sort has run), so `comb_frames` aborts instead of masking the
`low` lowest and `high` highest values; shown at a 3-frame stack with
`lowhigh = [1, 0]` and with `lowhigh = [0, 1]`. -/
theorem c1_lowhigh_stage_raises :
    combFrames (some [[1, 2, 3]]) 1 "mean"
      (some { cosmics := -1, replace := "median", level := (0, 0), lowhigh := (1, 0) })
      "nothing" [⟨100, 1⟩] 1048577
      = (["fallback", "lowhigh_sort"], .error .typeError) ∧
    combFrames (some [[1, 2, 3]]) 1 "mean"
      (some { cosmics := -1, replace := "median", level := (0, 0), lowhigh := (0, 1) })
      "nothing" [⟨100, 1⟩] 1048577
      = (["fallback", "lowhigh_sort"], .error .typeError) := by
  constructor <;> decide

/-! ## Claim C3 -/

/-- C3: in `force` mode the final overwrite uses `spect['det'][det]`, not
the `det-1` used everywhere else: with detector index 1, a saturated frame
(60 above the ceiling 100 * 1/2 = 50) makes the output carry the SECOND
detector saturation 999 instead of the selected detector value 100; with a
single-detector list the same call raises `IndexError`. -/
theorem c3_force_uses_wrong_detector :
    (combFrames (some [[60, 10]]) 1 "mean" none "force"
      [⟨100, 1/2⟩, ⟨999, 1⟩] 1048577).2 = .ok [999] ∧
    (combFrames (some [[60, 10]]) 1 "mean" none "force"
      [⟨100, 1/2⟩] 1048577).2 = .error .indexError := by
  refine ⟨?_, ?_⟩ <;>
    norm_num [combFrames, fallbackArr, satStage, satApply, combineStage,
      defaultReject, medianArr, medianQ, List.insertionSort, List.orderedInsert,
      maskedLimitget, satCeiling, pyGet, cosmicStage, lowhighStage, deviantStage,
      maskedMeanArr, maskedMeanPx, maskedReplace, maskedMedianArr, maskedMedianPx,
      maskedWeightmeanArr, satTraceOf, List.filter, List.zipWith] <;> rfl

/-! ## Claim C4 -/

/-- C4 counterexample: with `low = 0`, `high = 2` and 2 frames we have
`low + high >= num_frames`, yet the validation guard (which requires BOTH
counts positive) does not fire; the call fails later, inside the rejection
loop, with a `TypeError` and not with the configuration error. -/
theorem c4_counterexample :
    (combFrames (some [[1, 2]]) 1 "mean"
      (some { cosmics := -1, replace := "median", level := (0, 0), lowhigh := (0, 2) })
      "nothing" [⟨100, 1⟩] 1048577).2 ≠ .error (.msgsError "reject lowhigh") ∧
    (combFrames (some [[1, 2]]) 1 "mean"
      (some { cosmics := -1, replace := "median", level := (0, 0), lowhigh := (0, 2) })
      "nothing" [⟨100, 1⟩] 1048577).2 = .error .typeError := by
  constructor <;> decide

/-- C4 amended: the configuration error is raised exactly under the source
guard of lines 48-49: both counts positive and their sum at least
`num_frames` (with at least two frames); when one of the counts is zero
the validation does not fire. -/
theorem c4_amended (stack : Stack) (det : ℤ) (method : String) (c : ℚ)
    (rep : String) (lvl : ℚ × ℚ) (lo hi : ℕ) (satpix : String)
    (spect : List Det) (mv : ℚ) (hlo : 0 < lo) (hhi : 0 < hi)
    (hsum : stack.headI.length ≤ lo + hi) (hnf : stack.headI.length ≠ 1) :
    combFrames (some stack) det method
      (some { cosmics := c, replace := rep, level := lvl, lowhigh := (lo, hi) })
      satpix spect mv = ([], .error (.msgsError "reject lowhigh")) := by
  simp [combFrames, hnf, hlo, hhi, hsum]

/-- C4 witness: concrete instance of `c4_amended` at `lowhigh = [1, 1]`
with 2 frames. -/
theorem c4_witness :
    combFrames (some [[1, 2]]) 1 "mean"
      (some { cosmics := -1, replace := "median", level := (0, 0), lowhigh := (1, 1) })
      "nothing" [] 1048577 = ([], .error (.msgsError "reject lowhigh")) :=
  c4_amended [[1, 2]] 1 "mean" (-1) "median" (0, 0) 1 1 "nothing" [] 1048577
    (by decide) (by decide) (by decide) (by decide)

/-! ## Claim C5 -/

/-- C5 counterexample: with an unrecognised `satpix` mode the call does
fail and returns nothing, but only AFTER the fallback precompute has run
(the executed-stage trace is `["fallback"]`, not empty), contradicting the
fail-before-any-numeric-work claim. -/
theorem c5_counterexample :
    combFrames (some [[1, 2]]) 1 "mean" none "ignore" [⟨100, 1⟩] 1048577
      = (["fallback"], .error (.msgsError "satpix")) := by
  decide

/-- C5 amended: with at least two frames and an unknown method or satpix
mode, the call always fails — no partial result is ever returned — but the
failure does not precede the numeric work: whenever the fallback
precompute succeeds and the lowhigh guard passes, the stage trace at the
moment of failure already contains the fallback computation. -/
theorem c5_amended (stack : Stack) (det : ℤ) (method : String)
    (r : RejectDict) (satpix : String) (spect : List Det) (mv : ℚ)
    (hnf : stack.headI.length ≠ 1)
    (hbad : method ∉ ["mean", "median", "weightmean"] ∨
      satpix ∉ ["force", "reject", "nothing"]) :
    (∀ out, (combFrames (some stack) det method (some r) satpix spect mv).2
      ≠ .ok out) ∧
    (∀ allrej, fallbackArr stack r spect det mv = .ok allrej →
      ¬(0 < r.lowhigh.1 ∧ 0 < r.lowhigh.2 ∧
        stack.headI.length ≤ r.lowhigh.1 + r.lowhigh.2) →
      "fallback" ∈
        (combFrames (some stack) det method (some r) satpix spect mv).1) := by
  constructor
  · intro out
    simp only [combFrames, Option.getD_some, hnf, if_false, ite_false]
    by_cases h2 : 0 < r.lowhigh.1 ∧ 0 < r.lowhigh.2 ∧
        stack.headI.length ≤ r.lowhigh.1 + r.lowhigh.2
    · simp [h2]
    · simp only [h2, if_false, ite_false]
      rcases hfb : fallbackArr stack r spect det mv with e | allrej <;>
        simp only [hfb]
      · simp
      · rcases hbad with hm | hs
        · simp only [List.mem_cons, List.mem_singleton, List.not_mem_nil, not_or] at hm
          obtain ⟨hm1, hm2, hm3⟩ := hm
          rcases hst : satStage stack satpix spect det mv
            with e | ⟨setsat, s1⟩ <;> simp only [hst]
          · simp
          · rcases hlh : lowhighStage (cosmicStage s1 r.cosmics mv)
                r.lowhigh.1 r.lowhigh.2 mv with e | s3 <;> simp only [hlh]
            · simp
            · simp [combineStage, hm1, hm2, hm3]
        · simp only [List.mem_cons, List.mem_singleton, List.not_mem_nil, not_or] at hs
          obtain ⟨hs1, hs2, hs3⟩ := hs
          simp [satStage, hs1, hs2, hs3]
  · intro allrej hfb hguard
    simp only [combFrames, Option.getD_some, hnf, if_false, ite_false,
      hguard, hfb]
    rcases hst : satStage stack satpix spect det mv
      with e | ⟨setsat, s1⟩ <;> simp only [hst]
    · simp
    · rcases hlh : lowhighStage (cosmicStage s1 r.cosmics mv)
          r.lowhigh.1 r.lowhigh.2 mv with e | s3 <;> simp only [hlh]
      · simp
      · rcases hcb : combineStage
            (deviantStage s3 r.level.1 r.level.2 mv) method mv
          with e | comb <;> simp only [hcb]
        · simp
        · rcases hsa : satApply (maskedReplace comb allrej mv) satpix setsat
              spect det with e | final <;> simp only [hsa] <;> simp

/-- C5 witness: concrete instance of `c5_amended` with satpix mode
"ignore": the call fails, yet the fallback precompute has already run. -/
theorem c5_witness :
    (∀ out, (combFrames (some [[1, 2]]) 1 "mean" (some defaultReject)
      "ignore" [] 1048577).2 ≠ .ok out) ∧
    "fallback" ∈ (combFrames (some [[1, 2]]) 1 "mean" (some defaultReject)
      "ignore" [] 1048577).1 := by
  have h := c5_amended [[1, 2]] 1 "mean" defaultReject "ignore" [] 1048577
    (by decide) (Or.inr (by decide))
  exact ⟨h.1, h.2 (medianArr [[1, 2]]) rfl (by decide)⟩

/-! ## Claim C7 -/

/-- C7: with a single frame (`num_frames = 1`), `comb_frames` returns that
frame unchanged and performs no numeric stage at all (empty trace): the
output is the per-pixel single value, and re-wrapping it recovers the input
stack exactly. -/
theorem c7_single_frame_identity (stack : Stack) (det : ℤ) (method : String)
    (rejectOpt : Option RejectDict) (satpix : String) (spect : List Det)
    (mv : ℚ) (h0 : stack ≠ []) (h1 : ∀ p ∈ stack, p.length = 1) :
    combFrames (some stack) det method rejectOpt satpix spect mv
      = ([], .ok (stack.map List.headI)) ∧
    (stack.map List.headI).map (fun v => [v]) = stack := by
  obtain ⟨q, qs, rfl⟩ := List.exists_cons_of_ne_nil h0
  constructor
  · have hq : q.length = 1 := h1 q (by simp)
    simp [combFrames, hq]
  · rw [List.map_map]
    apply map_id_of
    intro p hp
    have hp1 := h1 p hp
    cases p with
    | nil => simp at hp1
    | cons a t =>
        cases t with
        | nil => rfl
        | cons b t2 => simp at hp1

/-- C7 witness: a concrete two-pixel single-frame stack is returned as is. -/
theorem c7_witness :
    combFrames (some [[5], [7]]) 1 "mean" none "nothing" [] 1048577
      = ([], .ok [5, 7]) := by
  have h := (c7_single_frame_identity [[5], [7]] 1 "mean" none "nothing" []
    1048577 (by decide) (by decide)).1
  rw [h]
  rfl

/-! ## Claim C10 -/

/-- C10: the single-frame early return happens before every validation:
even when the method, the saturation mode and the replacement rule are all
unknown and the rejection counts are not below `num_frames`, a one-frame
stack is returned successfully. -/
theorem c10_single_frame_skips_validation (stack : Stack) (det : ℤ)
    (method : String) (rejectOpt : Option RejectDict) (satpix : String)
    (spect : List Det) (mv : ℚ) (h0 : stack ≠ [])
    (h1 : ∀ p ∈ stack, p.length = 1)
    (hbad : method ∉ ["mean", "median", "weightmean"] ∨
      satpix ∉ ["force", "reject", "nothing"] ∨
      (rejectOpt.getD defaultReject).replace ∉
        ["min", "max", "mean", "median", "weightmean", "maxnonsat"] ∨
      1 ≤ (rejectOpt.getD defaultReject).lowhigh.1 +
        (rejectOpt.getD defaultReject).lowhigh.2) :
    (combFrames (some stack) det method rejectOpt satpix spect mv).2
      = .ok (stack.map List.headI) := by
  obtain ⟨q, qs, rfl⟩ := List.exists_cons_of_ne_nil h0
  have hq : q.length = 1 := h1 q (by simp)
  simp [combFrames, hq]

/-- C10 witness: unknown method, unknown mode, unknown replacement rule and
`low + high = 7 >= 1 = num_frames` are all silently accepted on the
single-frame path. -/
theorem c10_witness :
    (combFrames (some [[5]]) 1 "bogus"
      (some { cosmics := -1, replace := "nope", level := (0, 0), lowhigh := (3, 4) })
      "junk" [] 1048577).2 = .ok [5] := by
  have h := c10_single_frame_skips_validation [[5]] 1 "bogus"
    (some { cosmics := -1, replace := "nope", level := (0, 0), lowhigh := (3, 4) })
    "junk" [] 1048577 (by decide) (by decide) (by decide)
  rw [h]
  rfl

theorem lowhighStage_zero (s : Stack) (mv : ℚ) :
    lowhighStage s 0 0 mv = .ok s := by
  unfold lowhighStage
  simp

theorem satApply_force (combined : List ℚ) (setsat : List Bool)
    (spect : List Det) (det : ℤ) (d : Det) (hd : pyGet spect det = .ok d) :
    satApply combined "force" setsat spect det
      = .ok (List.zipWith (fun b c => if b then d.saturation else c)
          setsat combined) := by
  unfold satApply
  rw [if_pos rfl, hd]
  rfl

theorem satApply_not_force (combined : List ℚ) (satpix : String)
    (setsat : List Bool) (spect : List Det) (det : ℤ) (h : satpix ≠ "force") :
    satApply combined satpix setsat spect det = .ok combined := by
  unfold satApply
  rw [if_neg h]

theorem combineStage_allmv (w : Stack) (method : String) (mv : ℚ) (i : ℕ)
    (hmeth : method = "mean" ∨ method = "median" ∨ method = "weightmean")
    (hiw : i < w.length) (hall : ∀ x ∈ w.getD i [], x = mv) :
    ∃ comb, combineStage w method mv = .ok comb ∧ comb.length = w.length ∧
      comb.getD i 0 = mv := by
  rw [List.getD_eq_getElem w [] hiw] at hall
  rcases hmeth with hm | hm | hm <;> subst hm
  · refine ⟨maskedMeanArr w mv, rfl, by simp [maskedMeanArr], ?_⟩
    rw [List.getD_eq_getElem _ _ (by simpa [maskedMeanArr] using hiw)]
    simp only [maskedMeanArr, List.getElem_map]
    exact maskedMeanPx_allmv _ _ hall
  · refine ⟨maskedMedianArr w mv, rfl, by simp [maskedMedianArr], ?_⟩
    rw [List.getD_eq_getElem _ _ (by simpa [maskedMedianArr] using hiw)]
    simp only [maskedMedianArr, List.getElem_map]
    exact maskedMedianPx_allmv _ _ hall
  · refine ⟨maskedWeightmeanArr w mv, rfl,
      by simp [maskedWeightmeanArr, maskedMeanArr], ?_⟩
    rw [List.getD_eq_getElem _ _
      (by simpa [maskedWeightmeanArr, maskedMeanArr] using hiw)]
    simp only [maskedWeightmeanArr, maskedMeanArr, List.getElem_map]
    exact maskedMeanPx_allmv _ _ hall

/-! ## Claim C2 -/

set_option maxHeartbeats 2000000 in
/-- C2 counterexample: in satpix force mode the final overwrite overrides
the fully-rejected fallback.  At the pixel `[1, 3000]` (ceiling 50, so the
3000 frame is recorded as saturated) the deviant stage with levels
`(0, 1/10)` rejects both frames; the fallback (median 3001/2 of the
original stack) is substituted, but the force overwrite then replaces it
with the saturation value of `spect[det]` (777), so the returned value is
not the replacement-rule fallback. -/
theorem c2_counterexample :
    (combFrames (some [[1, 3000]]) 1 "mean"
      (some { cosmics := -1, replace := "median", level := (0, 1/10),
              lowhigh := (0, 0) })
      "force" [⟨100, 1/2⟩, ⟨777, 1⟩] 1048577).2 = .ok [777] ∧
    medianQ [(1 : ℚ), 3000] ≠ 777 := by
  constructor
  · norm_num [combFrames, fallbackArr, satStage, satApply, combineStage,
      medianArr, medianQ, List.insertionSort, List.orderedInsert,
      maskedLimitget, satCeiling, pyGet, cosmicStage, lowhighStage,
      deviantStage, robustStdArr, maskedLimitsetarr, maskedMedianArr,
      maskedMedianPx, maskedMeanArr, maskedMeanPx, maskedReplace,
      maskedWeightmeanArr, satTraceOf, List.filter, List.zipWith] <;> rfl
  · norm_num [medianQ, List.insertionSort, List.orderedInsert]

/-- C2 amended: when the pipeline reaches the combination (valid method,
valid satpix mode, lowhigh counts zero — any positive count aborts the
call) and every frame at pixel `i` of the working stack entering the
combination carries the sentinel, the call succeeds and returns at that
pixel the precomputed fallback of the replacement rule over the original
stack (for the median rule, the unmasked median of the original pixel) —
except that in force mode a pixel recorded as saturated would be
overwritten afterwards, so the pixel is additionally assumed unsaturated
there. -/
theorem c2_amended (stack : Stack) (det : ℤ) (method : String) (c : ℚ)
    (rep : String) (lvl : ℚ × ℚ) (satpix : String) (spect : List Det)
    (mv : ℚ) (allrej : List ℚ) (setsat : List Bool) (s1 : Stack) (i : ℕ)
    (hnf : stack.headI.length ≠ 1)
    (hfb : fallbackArr stack ⟨c, rep, lvl, (0, 0)⟩ spect det mv = .ok allrej)
    (hst : satStage stack satpix spect det mv = .ok (setsat, s1))
    (hmeth : method = "mean" ∨ method = "median" ∨ method = "weightmean")
    (hap : satpix = "force" → ∃ d, pyGet spect det = .ok d)
    (hns : satpix = "force" → setsat.getD i false = false)
    (hi : i < stack.length)
    (hrej : ∀ x ∈ (deviantStage (cosmicStage s1 c mv) lvl.1 lvl.2 mv).getD i [],
      x = mv) :
    ∃ final,
      (combFrames (some stack) det method (some ⟨c, rep, lvl, (0, 0)⟩) satpix
        spect mv).2 = .ok final ∧
      final.getD i 0 = allrej.getD i 0 ∧
      (rep = "median" → final.getD i 0 = medianQ (stack.getD i [])) := by
  have hs1len : s1.length = stack.length :=
    (satStage_ok_length stack satpix spect det mv setsat s1 hst).1
  have hsslen : satpix = "force" → setsat.length = stack.length :=
    (satStage_ok_length stack satpix spect det mv setsat s1 hst).2
  have harlen : allrej.length = stack.length :=
    fallbackArr_ok_length stack _ spect det mv allrej hfb
  have hwlen : (deviantStage (cosmicStage s1 c mv) lvl.1 lvl.2 mv).length
      = stack.length := by
    rw [deviantStage_length, cosmicStage_length, hs1len]
  obtain ⟨comb, hcombeq, hcomblen, hcombi⟩ :=
    combineStage_allmv (deviantStage (cosmicStage s1 c mv) lvl.1 lvl.2 mv)
      method mv i hmeth (by rw [hwlen]; exact hi) hrej
  have hcomblen2 : comb.length = stack.length := by rw [hcomblen, hwlen]
  have hreplen : (maskedReplace comb allrej mv).length = stack.length := by
    simp [maskedReplace, hcomblen2, harlen]
  have hrepi : (maskedReplace comb allrej mv).getD i 0 = allrej.getD i 0 := by
    rw [List.getD_eq_getElem _ _ (by rw [hreplen]; exact hi)]
    unfold maskedReplace
    rw [List.getElem_zipWith]
    rw [List.getD_eq_getElem comb 0 (by rw [hcomblen2]; exact hi)] at hcombi
    rw [hcombi, if_pos rfl, List.getD_eq_getElem allrej 0 (by rw [harlen]; exact hi)]
  have hmed : rep = "median" → allrej.getD i 0 = medianQ (stack.getD i []) := by
    intro hr
    subst hr
    have h8 : fallbackArr stack ⟨c, "median", lvl, (0, 0)⟩ spect det mv
        = .ok (medianArr stack) := rfl
    rw [h8] at hfb
    injection hfb with h9
    subst h9
    rw [List.getD_eq_getElem _ _ (by simpa [medianArr] using hi),
      List.getD_eq_getElem stack [] hi]
    simp [medianArr]
  have hmain : ∀ final,
      (combFrames (some stack) det method (some ⟨c, rep, lvl, (0, 0)⟩) satpix
        spect mv).2 = .ok final →
      final.getD i 0 = allrej.getD i 0 →
      ∃ f2, (combFrames (some stack) det method (some ⟨c, rep, lvl, (0, 0)⟩)
        satpix spect mv).2 = .ok f2 ∧ f2.getD i 0 = allrej.getD i 0 ∧
        (rep = "median" → f2.getD i 0 = medianQ (stack.getD i [])) := by
    intro final hf hfi
    exact ⟨final, hf, hfi, fun hr => by rw [hfi]; exact hmed hr⟩
  by_cases hforce : satpix = "force"
  · subst hforce
    obtain ⟨d, hd⟩ := hap rfl
    refine hmain (List.zipWith (fun b cc => if b then d.saturation else cc)
      setsat (maskedReplace comb allrej mv)) ?_ ?_
    · simp only [combFrames, Option.getD_some, hnf, if_false, ite_false,
        lt_self_iff_false, false_and, hfb, hst, lowhighStage_zero, hcombeq,
        satApply_force (maskedReplace comb allrej mv) setsat spect det d hd]
    · rw [List.getD_eq_getElem _ _ (by
        simp only [List.length_zipWith]
        rw [hreplen, hsslen rfl]
        simpa using hi)]
      rw [List.getElem_zipWith]
      have hsi : setsat.getD i false = false := hns rfl
      rw [List.getD_eq_getElem setsat false (by rw [hsslen rfl]; exact hi)] at hsi
      rw [hsi]
      simp only [Bool.false_eq_true, if_false, ite_false]
      rw [← List.getD_eq_getElem _ 0 (by rw [hreplen]; exact hi)]
      exact hrepi
  · refine hmain (maskedReplace comb allrej mv) ?_ hrepi
    simp only [combFrames, Option.getD_some, hnf, if_false, ite_false,
      lt_self_iff_false, false_and, hfb, hst, lowhighStage_zero, hcombeq,
      satApply_not_force (maskedReplace comb allrej mv) satpix setsat spect
        det hforce]

/-- C2 witness: concrete instance of `c2_amended` — satpix reject with a
low ceiling masks both frames of the single pixel, and the returned value
is the unmasked median 15 of the original pixel `[10, 20]`. -/
theorem c2_witness :
    ∃ final,
      (combFrames (some [[10, 20]]) 1 "mean"
        (some { cosmics := -1, replace := "median", level := (0, 0),
                lowhigh := (0, 0) })
        "reject" [⟨10, 1/2⟩] 1048577).2 = .ok final ∧
      final.getD 0 0 = 15 := by
  obtain ⟨final, h1, h2, h3⟩ :=
    c2_amended [[10, 20]] 1 "mean" (-1) "median" (0, 0) "reject" [⟨10, 1/2⟩]
      1048577 [15] [] [[1048577, 1048577]] 0
      (by decide)
      (by norm_num [fallbackArr, medianArr, medianQ, List.insertionSort,
        List.orderedInsert]
          <;> rfl)
      (by norm_num [satStage, satCeiling, pyGet, maskedLimitset]
          <;> decide)
      (Or.inl rfl)
      (fun h => absurd h (by decide))
      (fun h => absurd h (by decide))
      (by decide)
      (by norm_num [deviantStage, cosmicStage])
  exact ⟨final, h1, by rw [h2]; rfl⟩

/-! ## Claim C6 -/

/-- C6 counterexample: the cosmic-ray stage of the code and the stage as
the claim words it (sentinel ENTRIES excluded from the deviation median)
disagree on the pixel `[10, 20, 100, mv, mv]` with threshold 1: the code
takes the median of ALL five absolute deviations (the two masked entries
contribute huge deviations, inflating sigma to 1.4826 * 80) and keeps 100,
while the claim version (sigma 1.4826 * 10) rejects it. -/
theorem c6_counterexample :
    cosmicStage [[10, 20, 100, 1048577, 1048577]] 1 1048577
      ≠ cosmicStageClaim [[10, 20, 100, 1048577, 1048577]] 1 1048577 := by
  have h1 : cosmicStage [[10, 20, 100, 1048577, 1048577]] 1 1048577
      = [[10, 20, 100, 1048577, 1048577]] := by
    norm_num [cosmicStage, maskedMedianArr, maskedMedianPx, robustStdArr,
      maskedLimitsetarr, medianQ, List.insertionSort, List.orderedInsert,
      List.filter, List.zipWith]
  have h2 : cosmicStageClaim [[10, 20, 100, 1048577, 1048577]] 1 1048577
      = [[10, 20, 1048577, 1048577, 1048577]] := by
    norm_num [cosmicStageClaim, maskedMedianPx, medianQ, List.insertionSort,
      List.orderedInsert, List.filter]
  rw [h1, h2]
  norm_num

/-- C6 amended: for a positive threshold the cosmic-ray stage maps each
pixel to the per-pixel rule "mask the values above m + t * s", where m is
the masked median and s is 1.4826 times the masked median of the absolute
deviations from m — masking that excludes a deviation equal to the
sentinel, NOT the deviations of originally-sentinel entries; for a
non-positive threshold the stage is the identity. -/
theorem c6_amended (s : Stack) (t mv : ℚ) :
    (0 < t → cosmicStage s t mv = s.map (fun p =>
      let m := maskedMedianPx p mv
      let sd := (1.4826 : ℚ) * maskedMedianPx (p.map (fun x => |x - m|)) mv
      p.map (fun x => if m + t * sd < x then mv else x))) ∧
    (t ≤ 0 → cosmicStage s t mv = s) := by
  constructor
  · intro ht
    unfold cosmicStage
    rw [if_pos ht]
    induction s with
    | nil => rfl
    | cons p ps ih =>
        simp only [maskedMedianArr, robustStdArr, maskedLimitsetarr,
          List.map_cons, List.zipWith_cons_cons, List.map] at ih ⊢
        refine congrArg₂ _ ?_ ih
        simp [show ((0:ℤ) ≤ 2) from by decide]
  · intro ht
    unfold cosmicStage
    rw [if_neg (not_lt.2 ht)]

/-- C6 witness: concrete instance of `c6_amended` with threshold 1 on a
single pixel holding one spike; the robust sigma is 0 and the spike is
masked. -/
theorem c6_witness :
    cosmicStage [[0, 0, 0, 10000]] 1 1048577 = [[0, 0, 0, 1048577]] := by
  have h := (c6_amended [[0, 0, 0, 10000]] 1 1048577).1 (by norm_num)
  rw [h]
  norm_num [maskedMedianPx, medianQ, List.insertionSort, List.orderedInsert,
    List.filter]

/-! ## Claim C8 -/

theorem maskedReplace_no_mv (mv : ℚ) :
    ∀ (A B : List ℚ), (∀ a ∈ A, a ≠ mv) → A.length ≤ B.length →
      maskedReplace A B mv = A := by
  intro A
  induction A with
  | nil => intro B _ _; rfl
  | cons a A ih =>
      intro B hA hlen
      cases B with
      | nil => simp at hlen
      | cons b B =>
          simp only [maskedReplace, List.zipWith_cons_cons]
          rw [if_neg (hA a (by simp))]
          have := ih B (fun x hx => hA x (by simp [hx])) (by simpa using hlen)
          simpa [maskedReplace] using this

theorem zipWith_false_keep {α : Type} (l : List α) (w : ℚ) (g : α → ℚ) :
    List.zipWith (fun b c => if b then w else c) (l.map (fun _ => false))
      (l.map g) = l.map g := by
  induction l with
  | nil => rfl
  | cons a t ih =>
      simp only [List.map_cons, List.zipWith_cons_cons, Bool.false_eq_true,
        if_false, ite_false]
      rw [ih]

theorem headI_const (l : List ℚ) (v : ℚ) (h0 : l ≠ [])
    (h : ∀ x ∈ l, x = v) : l.headI = v := by
  cases l with
  | nil => exact absurd rfl h0
  | cons a t => exact h a (by simp)

/-- C8: a stack whose entries all equal one value v (below the saturation
ceiling, different from the sentinel), combined with the default reject
dictionary under any of the three valid satpix modes and any of the three
methods, yields v at every pixel. -/
theorem c8_constant_stack (stack : Stack) (det : ℤ) (method : String)
    (satpix : String) (spect : List Det) (mv ce v : ℚ)
    (h0 : stack ≠ [])
    (hconst : ∀ p ∈ stack, p ≠ [] ∧ ∀ x ∈ p, x = v)
    (hv : v ≠ mv)
    (hce : satCeiling spect det = .ok ce)
    (hvce : v ≤ ce)
    (hmeth : method = "mean" ∨ method = "median" ∨ method = "weightmean")
    (hsp : satpix = "force" ∨ satpix = "reject" ∨ satpix = "nothing")
    (hap : satpix = "force" → ∃ d, pyGet spect det = .ok d) :
    (combFrames (some stack) det method none satpix spect mv).2
      = .ok (stack.map (fun _ => v)) := by
  have hhead : stack.map List.headI = stack.map (fun _ => v) :=
    List.map_congr_left (fun p hp =>
      headI_const p v (hconst p hp).1 (hconst p hp).2)
  by_cases h1 : stack.headI.length = 1
  · simp only [combFrames, Option.getD_none, h1, if_pos, if_true, ite_true]
    rw [hhead]
  · have hfb : fallbackArr stack
        { cosmics := -1, replace := "median", level := (0, 0),
          lowhigh := (0, 0) } spect det mv = .ok (medianArr stack) := rfl
    have hcr : cosmicStage stack (-1) mv = stack := by
      unfold cosmicStage
      rw [if_neg (by norm_num)]
    have hdev : deviantStage stack 0 0 mv = stack := by
      unfold deviantStage
      simp
    have hcomb : combineStage stack method mv
        = .ok (stack.map (fun _ => v)) := by
      rcases hmeth with hm | hm | hm <;> subst hm
      · show Except.ok (maskedMeanArr stack mv) = _
        refine congrArg Except.ok (List.map_congr_left fun p hp => ?_)
        exact maskedMeanPx_const p v mv (hconst p hp).1 hv (hconst p hp).2
      · show Except.ok (maskedMedianArr stack mv) = _
        refine congrArg Except.ok (List.map_congr_left fun p hp => ?_)
        exact maskedMedianPx_const p v mv (hconst p hp).1 hv (hconst p hp).2
      · show Except.ok (maskedWeightmeanArr stack mv) = _
        refine congrArg Except.ok (List.map_congr_left fun p hp => ?_)
        exact maskedMeanPx_const p v mv (hconst p hp).1 hv (hconst p hp).2
    have hrep : maskedReplace (stack.map (fun _ => v)) (medianArr stack) mv
        = stack.map (fun _ => v) := by
      refine maskedReplace_no_mv mv _ _ ?_ ?_
      · intro a ha
        obtain ⟨p, _, rfl⟩ := List.mem_map.1 ha
        exact hv
      · simp [medianArr]
    rcases hsp with hs | hs | hs <;> subst hs
    · -- force
      obtain ⟨d, hd⟩ := hap rfl
      have hset : maskedLimitget stack ce = stack.map (fun _ => false) := by
        refine List.map_congr_left fun p hp => ?_
        apply List.any_eq_false.2
        intro x hx
        rw [(hconst p hp).2 x hx]
        simpa using not_lt.2 hvce
      have hst : satStage stack "force" spect det mv
          = .ok (maskedLimitget stack ce, stack) := by
        unfold satStage
        rw [if_pos rfl, hce]
        rfl
      rw [hset] at hst
      have hsa : satApply (stack.map (fun _ => v)) "force"
          (stack.map (fun _ => false)) spect det
          = .ok (stack.map (fun _ => v)) := by
        rw [satApply_force _ _ _ _ d hd, zipWith_false_keep]
      simp only [combFrames, Option.getD_none, h1, if_false, ite_false,
        defaultReject, lt_self_iff_false, false_and, hfb, hst, hcr,
        lowhighStage_zero, hdev, hcomb, hrep, hsa]
    · -- reject
      have hmask : maskedLimitset stack ce mv = stack := by
        refine map_id_of _ _ fun p hp => ?_
        refine map_id_of _ _ fun x hx => ?_
        rw [(hconst p hp).2 x hx]
        exact if_neg (not_lt.2 hvce)
      have hst : satStage stack "reject" spect det mv
          = .ok ([], maskedLimitset stack ce mv) := by
        unfold satStage
        rw [if_neg (by decide), if_pos rfl, hce]
        rfl
      rw [hmask] at hst
      have hsa : satApply (stack.map (fun _ => v)) "reject" [] spect det
          = .ok (stack.map (fun _ => v)) :=
        satApply_not_force _ _ _ _ _ (by decide)
      simp only [combFrames, Option.getD_none, h1, if_false, ite_false,
        defaultReject, lt_self_iff_false, false_and, hfb, hst, hcr,
        lowhighStage_zero, hdev, hcomb, hrep, hsa]
    · -- nothing
      have hst : satStage stack "nothing" spect det mv = .ok ([], stack) := by
        unfold satStage
        rw [if_neg (by decide), if_neg (by decide), if_pos rfl]
      have hsa : satApply (stack.map (fun _ => v)) "nothing" [] spect det
          = .ok (stack.map (fun _ => v)) :=
        satApply_not_force _ _ _ _ _ (by decide)
      simp only [combFrames, Option.getD_none, h1, if_false, ite_false,
        defaultReject, lt_self_iff_false, false_and, hfb, hst, hcr,
        lowhighStage_zero, hdev, hcomb, hrep, hsa]

/-- C8 witness: a 2-pixel, 2-frame stack of constant value 3 under
satpix "nothing" and method "median" combines to 3 at both pixels. -/
theorem c8_witness :
    (combFrames (some [[3, 3], [3, 3]]) 1 "median" none "nothing"
      [⟨100, 1⟩] 1048577).2 = .ok [3, 3] := by
  have h := c8_constant_stack [[3, 3], [3, 3]] 1 "median" "nothing"
    [⟨100, 1⟩] 1048577 100 3
    (by decide)
    (by decide)
    (by decide)
    (by norm_num [satCeiling, pyGet])
    (by norm_num)
    (Or.inr (Or.inl rfl))
    (Or.inr (Or.inr rfl))
    (fun hcon => absurd hcon (by decide))
  rw [h]
  rfl

/-! ## Claim C9 -/

theorem memAfterSat_orig (m : Mem) (satpix : String) (s1 : Stack) :
    (memAfterSat m satpix s1).orig = m.orig := by
  unfold memAfterSat
  split <;> rfl

theorem memAfterCR_orig (m : Mem) (c mv : ℚ) :
    (memAfterCR m c mv).orig = m.orig := by
  unfold memAfterCR
  split <;> rfl

theorem memAfterDev_orig (m : Mem) (l0 l1 mv : ℚ) :
    (memAfterDev m l0 l1 mv).orig = m.orig := by
  unfold memAfterDev
  split <;> rfl

theorem lowhighStageMem_orig (m : Mem) (lo hi : ℕ) (w : ℚ) :
    (lowhighStageMem m lo hi w).1.orig = m.orig := by
  unfold lowhighStageMem
  split
  · split <;> rfl
  · rfl

/-- C9: whatever the method, policy and saturation mode, and whether the
call returns or raises, the caller buffer holds its original contents when
`comb_frames` is done: rebindings switch the local name to fresh arrays,
and the only subscript assignments executed (the sign flip of line 118 and
the force overwrite of line 164) happen strictly after a rebinding, so no
mutation ever reaches the original stack. -/
theorem c9_caller_stack_unmodified (stack : Stack) (det : ℤ) (method : String)
    (rejectOpt : Option RejectDict) (satpix : String) (spect : List Det)
    (mv : ℚ) :
    (combFramesMem stack det method rejectOpt satpix spect mv).1.orig
      = stack := by
  have hm2 : ∀ s1 : Stack,
      (memAfterCR (memAfterSat ⟨stack, .toOrig⟩ satpix s1)
        (rejectOpt.getD defaultReject).cosmics mv).orig = stack := by
    intro s1
    rw [memAfterCR_orig, memAfterSat_orig]
  simp only [combFramesMem]
  by_cases h1 : stack.headI.length = 1
  · simp [h1]
  · simp only [h1, if_false, ite_false]
    by_cases h2 : 0 < (rejectOpt.getD defaultReject).lowhigh.1 ∧
        0 < (rejectOpt.getD defaultReject).lowhigh.2 ∧
        stack.headI.length ≤ (rejectOpt.getD defaultReject).lowhigh.1 +
          (rejectOpt.getD defaultReject).lowhigh.2
    · simp [h2]
    · simp only [h2, if_false, ite_false]
      rcases hfb : fallbackArr stack (rejectOpt.getD defaultReject) spect det mv
        with e | allrej <;> simp only [hfb]
      rcases hst : satStage stack satpix spect det mv
        with e | ⟨setsat, s1⟩ <;> simp only [hst]
      rcases hlh : lowhighStageMem
          (memAfterCR (memAfterSat ⟨stack, .toOrig⟩ satpix s1)
            (rejectOpt.getD defaultReject).cosmics mv)
          (rejectOpt.getD defaultReject).lowhigh.1
          (rejectOpt.getD defaultReject).lowhigh.2 mv with ⟨m3, res⟩
      have hm3 : m3.orig = stack := by
        have h3 := congrArg (fun z => (z.1 : Mem).orig) hlh
        simp only at h3
        rw [← h3, lowhighStageMem_orig, hm2]
      rcases res with e | u
      · simp only [hlh]
        exact hm3
      · rcases u
        simp only [hlh]
        rcases hcb : combineStage
            (memAfterDev m3 (rejectOpt.getD defaultReject).level.1
              (rejectOpt.getD defaultReject).level.2 mv).read method mv
          with e | comb <;> simp only [hcb]
        · rw [memAfterDev_orig]
          exact hm3
        · rcases hsa : satApply (maskedReplace comb allrej mv) satpix setsat
              spect det with e | final <;> simp only [hsa] <;>
            rw [memAfterDev_orig] <;> exact hm3

end Arcomb
